import Mathlib

/-!
Verification of the `notion` crate's typed object model (`src/models/mod.rs`):
the `Object` discriminated union, `ListResponse` narrowing operations,
`Properties` title lookup, id-restricted hashing for `Database`/`Page`,
deterministic (key-sorted) serialization of unordered maps, and the
encode/decode round trip.

Rust's `HashMap<String, V>` is embedded as an association list
`List (String × V)` whose order stands for the map's (implementation-defined)
iteration order; the map invariant is key distinctness.  `serde_json` values
are embedded as the inductive `Json`.  Machinery of the crate that lives in
modules outside the visible core (ids, rich text, property values, blocks,
users, timestamps, cursors, error bodies) is modelled from the spec as opaque
payloads with injective codecs, as marked on each definition.
-/

namespace Notion

/-- JSON values, the wire-payload model for `serde_json`.  An object is a
finite sequence of string-keyed fields (emission order is significant). -/
inductive Json where
  | null : Json
  | bool (b : Bool) : Json
  | int (n : Int) : Json
  | str (s : String) : Json
  | arr (elems : List Json) : Json
  | obj (fields : List (String × Json)) : Json
deriving Repr

/-- Field lookup in a JSON object's field list (first occurrence wins,
matching `serde_json`'s map semantics for the maps we build). -/
def jlookup : List (String × Json) → String → Option Json
  | [], _ => none
  | (k, v) :: rest, key => if k = key then some v else jlookup rest key

/-- Modelled from the spec: `DatabaseId` (crate module `ids`) is an opaque
string-backed identifier; equality and hashing are by the underlying string. -/
structure DatabaseId where
  str0 : String
deriving DecidableEq, Repr

/-- Modelled from the spec: `PageId` is an opaque string-backed identifier. -/
structure PageId where
  str0 : String
deriving DecidableEq, Repr

/-- Modelled from the spec: `BlockId` is an opaque string-backed identifier. -/
structure BlockId where
  str0 : String
deriving DecidableEq, Repr

/-- Modelled from the spec: `OffsetDateTime` (crate `time`) with its ISO8601
codec is an opaque timestamp that survives its format round trip exactly; we
abstract the instant as an integer and the codec as the injective embedding
of that integer. -/
structure OffsetDateTime where
  stamp : Int
deriving DecidableEq, Repr

/-- Modelled from the spec: `RichText` (crate module `text`) is an opaque
rich-text segment exposing a `plain_text` accessor; `markup` stands for the
formatting data that is not part of the plain text. -/
structure RichText where
  plain_text0 : String
  markup : String
deriving DecidableEq, Repr

/-- The `plain_text` accessor contract of `RichText`. -/
def RichText.plain_text (r : RichText) : String :=
  r.plain_text0

/-- Modelled from the spec: `PropertyValue` (crate module `properties`) is a
closed variant set with a distinguishable Title variant exposing its
rich-text sequence (plus an id field, matched as `{ title, .. }` in the
source); all other kinds are opaque payloads. -/
inductive PropertyValue where
  | title (id : String) (title : List RichText) : PropertyValue
  | other (kind : String) (payload : String) : PropertyValue
deriving DecidableEq, Repr

/-- Modelled from the spec: `PropertyConfiguration` is an opaque,
independently codable property-schema payload. -/
structure PropertyConfiguration where
  payload : String
deriving DecidableEq, Repr

/-- Modelled from the spec: `Block` (crate module `block`) is an opaque
entity payload, independently codable as a flattened sub-payload. -/
structure Block where
  payload : String
deriving DecidableEq, Repr

/-- Modelled from the spec: `CreateBlock` is an opaque caller-constructed
block payload used in write requests. -/
structure CreateBlock where
  payload : String
deriving DecidableEq, Repr

/-- Modelled from the spec: `FileOrEmojiObject` is an opaque icon payload. -/
structure FileOrEmojiObject where
  payload : String
deriving DecidableEq, Repr

/-- Modelled from the spec: `User` (crate module `users`) is an opaque entity
payload. -/
structure User where
  payload : String
deriving DecidableEq, Repr

/-- Modelled from the spec: `ErrorResponse` (crate module `error`) is an
opaque error-body payload appearing as one `Object` variant. -/
structure ErrorResponse where
  payload : String
deriving DecidableEq, Repr

/-- Modelled from the spec: `PropertyItem` is an opaque entity payload. -/
structure PropertyItem where
  payload : String
deriving DecidableEq, Repr

/-- Modelled from the spec: `PagingCursor` (crate module `paging`) is an
opaque continuation token, transported verbatim. -/
structure PagingCursor where
  token : String
deriving DecidableEq, Repr

/-- `Parent` from `src/models/mod.rs`: tagged union (tag field `type`)
identifying what owns an entity. -/
inductive Parent where
  | database (database_id : DatabaseId) : Parent
  | page (page_id : PageId) : Parent
  | block (block_id : BlockId) : Parent
  | workspace : Parent
deriving DecidableEq, Repr

/-- `Properties` from `src/models/mod.rs`: a `HashMap<String, PropertyValue>`
(embedded as an association list in iteration order), serialized flattened
and key-sorted. -/
structure Properties where
  properties : List (String × PropertyValue)
deriving DecidableEq, Repr

/-- `Properties::title`: the first Title-kind value in iteration order,
its plain-text runs concatenated (`title.iter().map(plain_text).collect()`). -/
def Properties.title (p : Properties) : Option String :=
  p.properties.findSome? fun kv =>
    match kv.2 with
    | .title _ ts => some (String.join (ts.map RichText.plain_text))
    | _ => none

/-- `Properties::title_object`: the rich-text sequence of the first
Title-kind value in iteration order. -/
def Properties.title_object (p : Properties) : Option (List RichText) :=
  p.properties.findSome? fun kv =>
    match kv.2 with
    | .title _ ts => some ts
    | _ => none

/-- `Database` from `src/models/mod.rs`. -/
structure Database where
  id : DatabaseId
  created_time : OffsetDateTime
  last_edited_time : OffsetDateTime
  title : List RichText
  properties : List (String × PropertyConfiguration)
deriving DecidableEq, Repr

/-- `Database::title_plain_text`: concatenation of the plain text of the
title's rich-text segments. -/
def Database.title_plain_text (d : Database) : String :=
  String.join (d.title.map RichText.plain_text)

/-- `Page` from `src/models/mod.rs`. -/
structure Page where
  id : PageId
  created_time : OffsetDateTime
  last_edited_time : OffsetDateTime
  archived : Bool
  properties : Properties
  parent : Parent
  icon : Option FileOrEmojiObject
  url : Option String
  blocks : Option (List Block)
deriving DecidableEq, Repr

/-- `Page::title`, delegating to `Properties::title`. -/
def Page.title (p : Page) : Option String :=
  p.properties.title

/-- `ListResponse<T>` from `src/models/mod.rs`: paginated envelope. -/
structure ListResponse (α : Type) where
  results : List α
  next_cursor : Option PagingCursor
  has_more : Bool
deriving Repr

/-- `Object` from `src/models/mod.rs`: the top-level discriminated union
(tag field `object`), recursive through `ListResponse<Object>`. -/
inductive Object where
  | block (block : Block) : Object
  | database (database : Database) : Object
  | page (page : Page) : Object
  | list (list : ListResponse Object) : Object
  | user (user : User) : Object
  | error (error : ErrorResponse) : Object
  | property_item (property_item : PropertyItem) : Object

/-- `Object::is_database`. -/
def Object.is_database : Object → Bool
  | .database _ => true
  | _ => false

/-- The crate's `Error` type, restricted to the variant used by the visible
core; `UnexpectedResponse` carries the offending `Object` (spec §7). -/
inductive Error where
  | unexpectedResponse (response : Object) : Error

/-- `ListResponse::only_databases`: permissive narrowing by `filter_map`. -/
def ListResponse.only_databases (self : ListResponse Object) : ListResponse Database :=
  { results := self.results.filterMap fun object =>
      match object with
      | .database database => some database
      | _ => none
    has_more := self.has_more
    next_cursor := self.next_cursor }

/-- `Iterator::map(..).collect::<Result<Vec<_>, _>>()`: left-to-right
collection that stops at the first `Err`. -/
def collectResult {α β : Type} (f : α → Except Error β) : List α → Except Error (List β)
  | [] => .ok []
  | x :: xs =>
      match f x with
      | .ok y =>
          match collectResult f xs with
          | .ok ys => .ok (y :: ys)
          | .error e => .error e
      | .error e => .error e

/-- `ListResponse::expect_databases`: strict narrowing via fallible collect. -/
def ListResponse.expect_databases (self : ListResponse Object) :
    Except Error (ListResponse Database) :=
  match collectResult (fun object =>
      match object with
      | .database database => Except.ok database
      | response => Except.error (.unexpectedResponse response)) self.results with
  | .error e => .error e
  | .ok databases =>
      .ok { results := databases
            has_more := self.has_more
            next_cursor := self.next_cursor }

/-- `ListResponse::expect_pages`: strict narrowing to pages. -/
def ListResponse.expect_pages (self : ListResponse Object) :
    Except Error (ListResponse Page) :=
  match collectResult (fun object =>
      match object with
      | .page page => Except.ok page
      | response => Except.error (.unexpectedResponse response)) self.results with
  | .error e => .error e
  | .ok items =>
      .ok { results := items
            has_more := self.has_more
            next_cursor := self.next_cursor }

/-- `ListResponse::expect_blocks`: strict narrowing to blocks. -/
def ListResponse.expect_blocks (self : ListResponse Object) :
    Except Error (ListResponse Block) :=
  match collectResult (fun object =>
      match object with
      | .block block => Except.ok block
      | response => Except.error (.unexpectedResponse response)) self.results with
  | .error e => .error e
  | .ok items =>
      .ok { results := items
            has_more := self.has_more
            next_cursor := self.next_cursor }

/-- Key lookup in an association list (Rust `HashMap::get`). -/
def alookup {β : Type} : List (String × β) → String → Option β
  | [], _ => none
  | (k, v) :: rest, key => if k = key then some v else alookup rest key

/-- Rust `HashMap` `PartialEq`: same length and every key of the left map
maps to an equal value in the right map (content equality, insertion-order
independent). -/
def mapBEq {β : Type} [BEq β] (m1 m2 : List (String × β)) : Bool :=
  m1.length == m2.length && m1.all fun kv => alookup m2 kv.1 == some kv.2

/-- Derived `PartialEq` for `Properties` (its one field is a `HashMap`). -/
def propertiesEq (a b : Properties) : Bool :=
  mapBEq a.properties b.properties

/-- Derived `PartialEq` for `Database`: full structural comparison, with
`HashMap` content equality on `properties`. -/
def databaseEq (a b : Database) : Bool :=
  a.id == b.id && a.created_time == b.created_time &&
  a.last_edited_time == b.last_edited_time && a.title == b.title &&
  mapBEq a.properties b.properties

/-- Derived `PartialEq` for `Page`: full structural comparison, with
`HashMap` content equality inside `properties`. -/
def pageEq (a b : Page) : Bool :=
  a.id == b.id && a.created_time == b.created_time &&
  a.last_edited_time == b.last_edited_time && a.archived == b.archived &&
  propertiesEq a.properties b.properties && a.parent == b.parent &&
  a.icon == b.icon && a.url == b.url && a.blocks == b.blocks

mutual

/-- Derived `PartialEq` for `Object` (recursive through the `List` variant). -/
def objectEq : Object → Object → Bool
  | .block a, .block b => a == b
  | .database a, .database b => databaseEq a b
  | .page a, .page b => pageEq a b
  | .list a, .list b => listRespObjEq a b
  | .user a, .user b => a == b
  | .error a, .error b => a == b
  | .property_item a, .property_item b => a == b
  | _, _ => false

/-- Derived `PartialEq` for `ListResponse<Object>`. -/
def listRespObjEq : ListResponse Object → ListResponse Object → Bool
  | ⟨r1, c1, h1⟩, ⟨r2, c2, h2⟩ => objListEq r1 r2 && c1 == c2 && h1 == h2

/-- Elementwise `Object` equality on `Vec<Object>`. -/
def objListEq : List Object → List Object → Bool
  | [], [] => true
  | x :: xs, y :: ys => objectEq x y && objListEq xs ys
  | _, _ => false

end

/-- The id-only `Hash` impl for `Page` (`self.id.hash(state)`): the hash
depends only on the id, for any hasher `h` on page ids. -/
def pageHash (h : PageId → Nat) (p : Page) : Nat :=
  h p.id

/-- The id-only `Hash` impl for `Database` (`self.id.hash(state)`). -/
def databaseHash (h : DatabaseId → Nat) (d : Database) : Nat :=
  h d.id

/-- Rust `HashSet::insert` semantics: the new element is discarded exactly
when an element equal under the container's `Eq` is already present; the
hash selects a bucket but never merges elements that `Eq` distinguishes. -/
def hashSetInsert {α : Type} (eq : α → α → Bool) (s : List α) (x : α) : List α :=
  if s.any (fun y => eq y x) then s else s ++ [x]

/-- `PageCreateRequest` from `src/models/mod.rs` (`children` and `icon`
carry `#[serde(skip_serializing_if = "Option::is_none")]`). -/
structure PageCreateRequest where
  parent : Parent
  properties : Properties
  children : Option (List CreateBlock)
  icon : Option FileOrEmojiObject
deriving DecidableEq, Repr

/-- `UpdateBlockChildrenRequest` from `src/models/mod.rs`. -/
structure UpdateBlockChildrenRequest where
  children : List CreateBlock
deriving DecidableEq, Repr

/-- `PageUpdateRequest` from `src/models/mod.rs` (`archived` and `icon`
carry `#[serde(skip_serializing_if = "Option::is_none")]`). -/
structure PageUpdateRequest where
  properties : Properties
  archived : Option Bool
  icon : Option FileOrEmojiObject
deriving DecidableEq, Repr

/-- Key distinctness, the `HashMap` representation invariant of the
association-list embedding. -/
def nodupKeys {β : Type} : List (String × β) → Bool
  | [] => true
  | (k, _) :: rest => (alookup rest k).isNone && nodupKeys rest

/-- `ordered_map` from `src/models/mod.rs`: the map's entries are collected
into a `BTreeMap` and that is serialized, so entries are emitted sorted by
key regardless of the `HashMap`'s iteration order.  (On key-distinct entry
lists — the `HashMap` invariant — this is exactly the key-sorted
permutation.) -/
def ordered_map {β : Type} (m : List (String × β)) : List (String × β) :=
  m.insertionSort fun a b => a.1 ≤ b.1

instance {β : Type} : IsTotal (String × β) (fun a b => a.1 ≤ b.1) :=
  ⟨fun a b => le_total a.1 b.1⟩

instance {β : Type} : IsTrans (String × β) (fun a b => a.1 ≤ b.1) :=
  ⟨fun _ _ _ hab hbc => le_trans hab hbc⟩

instance {β : Type} : IsAntisymm (String × β) (fun a b => a.1 < b.1) :=
  ⟨fun _ _ h1 h2 => absurd h2 (lt_asymm h1)⟩

/-- Modelled from the spec: codec for the opaque string-backed ids. -/
def encodeDatabaseId (i : DatabaseId) : Json :=
  .str i.str0

/-- Modelled from the spec: codec for the opaque string-backed ids. -/
def encodePageId (i : PageId) : Json :=
  .str i.str0

/-- Modelled from the spec: codec for the opaque string-backed ids. -/
def encodeBlockId (i : BlockId) : Json :=
  .str i.str0

/-- Modelled from the spec: the ISO8601 timestamp codec, abstracted as the
injective embedding of the instant. -/
def encodeTime (t : OffsetDateTime) : Json :=
  .int t.stamp

/-- Modelled from the spec: codec for the opaque rich-text segment. -/
def encodeRichText (r : RichText) : Json :=
  .obj [("plain_text", .str r.plain_text0), ("markup", .str r.markup)]

/-- Modelled from the spec: codec for `PropertyValue` — a `type` tag with a
distinguishable `title` variant carrying its rich-text sequence. -/
def encodePropertyValue : PropertyValue → Json
  | .title i ts =>
      .obj [("type", .str "title"), ("id", .str i),
            ("title", .arr (ts.map encodeRichText))]
  | .other kind payload =>
      .obj [("type", .str kind), ("payload", .str payload)]

/-- The representation invariant of the modelled `PropertyValue`: the
non-title kinds are kinds other than `title` (the Title variant is
distinguishable). -/
def propertyValueWf : PropertyValue → Bool
  | .title _ _ => true
  | .other kind _ => kind != "title"

/-- Modelled from the spec: codec for the opaque property schema payload. -/
def encodePropertyConfiguration (c : PropertyConfiguration) : Json :=
  .str c.payload

/-- Modelled from the spec: codec for the opaque icon payload. -/
def encodeFileOrEmoji (f : FileOrEmojiObject) : Json :=
  .str f.payload

/-- Modelled from the spec: codec for the opaque caller-built block payload. -/
def encodeCreateBlock (c : CreateBlock) : Json :=
  .str c.payload

/-- Modelled from the spec: the flattened sub-payload of a `Block`. -/
def encodeBlockFields (b : Block) : List (String × Json) :=
  [("block_payload", .str b.payload)]

/-- Modelled from the spec: a `Block` as a standalone value (inside
`Page.blocks`). -/
def encodeBlock (b : Block) : Json :=
  .obj (encodeBlockFields b)

/-- Modelled from the spec: the flattened sub-payload of a `User`. -/
def encodeUserFields (u : User) : List (String × Json) :=
  [("user_payload", .str u.payload)]

/-- Modelled from the spec: the flattened sub-payload of an `ErrorResponse`. -/
def encodeErrorFields (e : ErrorResponse) : List (String × Json) :=
  [("error_payload", .str e.payload)]

/-- Modelled from the spec: the flattened sub-payload of a `PropertyItem`. -/
def encodePropertyItemFields (p : PropertyItem) : List (String × Json) :=
  [("item_payload", .str p.payload)]

/-- Serialization of `Properties`: the `#[serde(flatten)]` map becomes the
whole object, emitted through `ordered_map` (key-sorted). -/
def encodeProperties (p : Properties) : Json :=
  .obj ((ordered_map p.properties).map fun kv => (kv.1, encodePropertyValue kv.2))

/-- Serialization of `Parent`: `#[serde(tag = "type")]` with the renames of
the source. -/
def encodeParent : Parent → Json
  | .database i => .obj [("type", .str "database_id"), ("database_id", encodeDatabaseId i)]
  | .page i => .obj [("type", .str "page_id"), ("page_id", encodePageId i)]
  | .block i => .obj [("type", .str "block_id"), ("block_id", encodeBlockId i)]
  | .workspace => .obj [("type", .str "workspace")]

/-- Serialization of `Database` as a field list (flattened into `Object`):
every field in declaration order, `properties` through `ordered_map`. -/
def encodeDatabaseFields (d : Database) : List (String × Json) :=
  [("id", encodeDatabaseId d.id),
   ("created_time", encodeTime d.created_time),
   ("last_edited_time", encodeTime d.last_edited_time),
   ("title", .arr (d.title.map encodeRichText)),
   ("properties",
     .obj ((ordered_map d.properties).map fun kv =>
       (kv.1, encodePropertyConfiguration kv.2)))]

/-- Serialization of `Page` as a field list: required fields in declaration
order, then each `#[serde(skip_serializing_if = "Option::is_none")]` field
only when set (omitted entirely when unset, never emitted as `null`). -/
def encodePageFields (p : Page) : List (String × Json) :=
  [("id", encodePageId p.id),
   ("created_time", encodeTime p.created_time),
   ("last_edited_time", encodeTime p.last_edited_time),
   ("archived", .bool p.archived),
   ("properties", encodeProperties p.properties),
   ("parent", encodeParent p.parent)]
  ++ (match p.icon with
      | some ic => [("icon", encodeFileOrEmoji ic)]
      | none => [])
  ++ (match p.url with
      | some u => [("url", .str u)]
      | none => [])
  ++ (match p.blocks with
      | some bs => [("blocks", .arr (bs.map encodeBlock))]
      | none => [])

/-- Serialization of the `next_cursor` field: a plain `Option` field (no
skip attribute), so `None` is emitted as `null`. -/
def encodeCursor : Option PagingCursor → Json
  | none => .null
  | some c => .str c.token

mutual

/-- Serialization of `Object`: `#[serde(tag = "object")]`, the snake-case
discriminator first, then the variant's flattened fields. -/
def encodeObject : Object → Json
  | .block b => .obj (("object", Json.str "block") :: encodeBlockFields b)
  | .database d => .obj (("object", Json.str "database") :: encodeDatabaseFields d)
  | .page p => .obj (("object", Json.str "page") :: encodePageFields p)
  | .list l => .obj (("object", Json.str "list") :: encodeListFields l)
  | .user u => .obj (("object", Json.str "user") :: encodeUserFields u)
  | .error e => .obj (("object", Json.str "error") :: encodeErrorFields e)
  | .property_item p => .obj (("object", Json.str "property_item") :: encodePropertyItemFields p)

/-- Serialization of a flattened `ListResponse<Object>`. -/
def encodeListFields (l : ListResponse Object) : List (String × Json) :=
  [("results", .arr (encodeObjectList l.results)),
   ("next_cursor", encodeCursor l.next_cursor),
   ("has_more", .bool l.has_more)]

/-- Serialization of `Vec<Object>`. -/
def encodeObjectList : List Object → List Json
  | [] => []
  | x :: xs => encodeObject x :: encodeObjectList xs

end

/-- Serialization of `PageCreateRequest`: `parent` and `properties` always,
`children`/`icon` only when set. -/
def encodePageCreateRequest (r : PageCreateRequest) : Json :=
  .obj ([("parent", encodeParent r.parent),
         ("properties", encodeProperties r.properties)]
    ++ (match r.children with
        | some cs => [("children", Json.arr (cs.map encodeCreateBlock))]
        | none => [])
    ++ (match r.icon with
        | some ic => [("icon", encodeFileOrEmoji ic)]
        | none => []))

/-- Serialization of `PageUpdateRequest`: `properties` always,
`archived`/`icon` only when set. -/
def encodePageUpdateRequest (u : PageUpdateRequest) : Json :=
  .obj ([("properties", encodeProperties u.properties)]
    ++ (match u.archived with
        | some a => [("archived", Json.bool a)]
        | none => [])
    ++ (match u.icon with
        | some ic => [("icon", encodeFileOrEmoji ic)]
        | none => []))

/-- Serialization of `UpdateBlockChildrenRequest`. -/
def encodeUpdateBlockChildrenRequest (r : UpdateBlockChildrenRequest) : Json :=
  .obj [("children", Json.arr (r.children.map encodeCreateBlock))]

/-- The field list of a JSON object (observer used in statements). -/
def jsonFields : Json → List (String × Json)
  | .obj fs => fs
  | _ => []

/-- The keys of a JSON object in emission order (observer used in
statements). -/
def jsonObjKeys (j : Json) : List String :=
  (jsonFields j).map Prod.fst

/-- The emitted key order of a serialized `Database`'s `properties` field
(observer used in statements). -/
def databasePropsKeys (d : Database) : List String :=
  match alookup (encodeDatabaseFields d) "properties" with
  | some j => jsonObjKeys j
  | none => []

/-- The rich-text payloads of the Title-kind entries of a `Properties`
value, in iteration order (observer used in statements). -/
def titleEntries (p : Properties) : List (List RichText) :=
  p.properties.filterMap fun kv =>
    match kv.2 with
    | .title _ ts => some ts
    | _ => none

/-! ### Deserialization: `serde` decoding from `Json` -/

/-- Decode failures: an unrecognized `object` discriminator (named), or any
other malformed payload (missing discriminator, missing required field,
wrong field type). -/
inductive DecodeError where
  | unknownVariant (tag : String) : DecodeError
  | invalidPayload : DecodeError
deriving DecidableEq, Repr

/-- Decode every element of a JSON array, failing if any element fails. -/
def decodeArrWith {β : Type} (dec : Json → Option β) : List Json → Option (List β)
  | [] => some []
  | x :: xs =>
      match dec x, decodeArrWith dec xs with
      | some b, some bs => some (b :: bs)
      | _, _ => none

/-- Decode every value of a JSON object into a string-keyed map. -/
def decodeMapWith {β : Type} (dec : Json → Option β) :
    List (String × Json) → Option (List (String × β))
  | [] => some []
  | (k, v) :: rest =>
      match dec v, decodeMapWith dec rest with
      | some b, some bs => some ((k, b) :: bs)
      | _, _ => none

/-- `serde` decoding of an `Option` field: a missing key or an explicit
`null` decodes to `None`; anything else must decode as the inner type. -/
def decodeOpt {β : Type} (dec : Json → Option β) : Option Json → Option (Option β)
  | none => some none
  | some .null => some none
  | some j => (dec j).map some

/-- Modelled from the spec: decoder of the opaque timestamp codec. -/
def decodeTime : Json → Option OffsetDateTime
  | .int n => some ⟨n⟩
  | _ => none

/-- Modelled from the spec: decoder of the opaque rich-text codec. -/
def decodeRichText : Json → Option RichText
  | .obj [("plain_text", .str p), ("markup", .str m)] => some ⟨p, m⟩
  | _ => none

/-- Modelled from the spec: decoder of the `PropertyValue` codec; the
`title` kind is distinguished from all others by the `type` tag. -/
def decodePropertyValue : Json → Option PropertyValue
  | .obj fields =>
      match jlookup fields "type" with
      | some (.str kind) =>
          if kind = "title" then
            match jlookup fields "id", jlookup fields "title" with
            | some (.str i), some (.arr ts) =>
                (decodeArrWith decodeRichText ts).map (PropertyValue.title i)
            | _, _ => none
          else
            match jlookup fields "payload" with
            | some (.str p) => some (.other kind p)
            | _ => none
      | _ => none
  | _ => none

/-- Modelled from the spec: decoder of the opaque property-schema codec. -/
def decodePropertyConfiguration : Json → Option PropertyConfiguration
  | .str s => some ⟨s⟩
  | _ => none

/-- Modelled from the spec: decoder of the opaque icon codec. -/
def decodeFileOrEmoji : Json → Option FileOrEmojiObject
  | .str s => some ⟨s⟩
  | _ => none

/-- Modelled from the spec: decoder of a standalone `Block` value. -/
def decodeBlockVal : Json → Option Block
  | .obj [("block_payload", .str p)] => some ⟨p⟩
  | _ => none

/-- Decoder of a JSON string. -/
def decodeStrVal : Json → Option String
  | .str s => some s
  | _ => none

/-- Decoder of `Vec<Block>` (the `Page.blocks` field). -/
def decodeBlocksVal : Json → Option (List Block)
  | .arr bs => decodeArrWith decodeBlockVal bs
  | _ => none

/-- Decoder of a `PagingCursor` value. -/
def decodeCursorVal : Json → Option PagingCursor
  | .str s => some ⟨s⟩
  | _ => none

/-- Decoder of `Parent` (tag field `type`, renamed variants as in the
source). -/
def decodeParent : Json → Option Parent
  | .obj fields =>
      match jlookup fields "type" with
      | some (.str "database_id") =>
          match jlookup fields "database_id" with
          | some (.str s) => some (.database ⟨s⟩)
          | _ => none
      | some (.str "page_id") =>
          match jlookup fields "page_id" with
          | some (.str s) => some (.page ⟨s⟩)
          | _ => none
      | some (.str "block_id") =>
          match jlookup fields "block_id" with
          | some (.str s) => some (.block ⟨s⟩)
          | _ => none
      | some (.str "workspace") => some .workspace
      | _ => none
  | _ => none

/-- Decoder of the flattened `Database` fields (unknown neighbours such as
the `object` tag are ignored, as `serde` does). -/
def decodeDatabaseFields (fields : List (String × Json)) : Option Database :=
  match jlookup fields "id", jlookup fields "created_time",
      jlookup fields "last_edited_time", jlookup fields "title",
      jlookup fields "properties" with
  | some (.str i), some ct, some lt, some (.arr ts), some (.obj props) =>
      match decodeTime ct, decodeTime lt, decodeArrWith decodeRichText ts,
          decodeMapWith decodePropertyConfiguration props with
      | some ct', some lt', some ts', some props' =>
          some ⟨⟨i⟩, ct', lt', ts', props'⟩
      | _, _, _, _ => none
  | _, _, _, _, _ => none

/-- Decoder of the flattened `Page` fields: required fields must be
present and well-typed; optional fields default to absent when missing. -/
def decodePageFields (fields : List (String × Json)) : Option Page :=
  match jlookup fields "id", jlookup fields "created_time",
      jlookup fields "last_edited_time", jlookup fields "archived",
      jlookup fields "properties", jlookup fields "parent" with
  | some (.str i), some ct, some lt, some (.bool ar), some (.obj props), some par =>
      match decodeTime ct, decodeTime lt,
          decodeMapWith decodePropertyValue props, decodeParent par,
          decodeOpt decodeFileOrEmoji (jlookup fields "icon"),
          decodeOpt decodeStrVal (jlookup fields "url"),
          decodeOpt decodeBlocksVal (jlookup fields "blocks") with
      | some ct', some lt', some props', some par', some ic, some u, some bs =>
          some ⟨⟨i⟩, ct', lt', ar, ⟨props'⟩, par', ic, u, bs⟩
      | _, _, _, _, _, _, _ => none
  | _, _, _, _, _, _ => none

theorem sizeOf_jlookup {fields : List (String × Json)} {k : String} {v : Json}
    (h : jlookup fields k = some v) : sizeOf v < sizeOf fields := by
  induction fields with
  | nil => simp [jlookup] at h
  | cons kv rest ih =>
      obtain ⟨k', v'⟩ := kv
      by_cases hk : k' = k
      · simp only [jlookup, if_pos hk, Option.some.injEq] at h
        subst h
        simp only [List.cons.sizeOf_spec, Prod.mk.sizeOf_spec]
        omega
      · simp only [jlookup, if_neg hk] at h
        have := ih h
        simp only [List.cons.sizeOf_spec, Prod.mk.sizeOf_spec]
        omega

mutual

/-- Decoding of `Object`: dispatch on the required `object` discriminator;
an unrecognized tag fails with `DecodeError.unknownVariant` naming it, a
missing or non-string discriminator (or any malformed variant body) fails
with `DecodeError.invalidPayload`; nothing is coerced to a default. -/
def decodeObject : Json → Except DecodeError Object
  | .obj fields =>
      match jlookup fields "object" with
      | some (.str tag) =>
          if tag = "block" then
            match jlookup fields "block_payload" with
            | some (.str p) => .ok (.block ⟨p⟩)
            | _ => .error .invalidPayload
          else if tag = "database" then
            match decodeDatabaseFields fields with
            | some d => .ok (.database d)
            | none => .error .invalidPayload
          else if tag = "page" then
            match decodePageFields fields with
            | some p => .ok (.page p)
            | none => .error .invalidPayload
          else if tag = "list" then
            match hres : jlookup fields "results" with
            | some (.arr elems) =>
                match decodeObjectArr elems with
                | .ok objs =>
                    match decodeOpt decodeCursorVal (jlookup fields "next_cursor"),
                        jlookup fields "has_more" with
                    | some cur, some (.bool hm) => .ok (.list ⟨objs, cur, hm⟩)
                    | _, _ => .error .invalidPayload
                | .error e => .error e
            | _ => .error .invalidPayload
          else if tag = "user" then
            match jlookup fields "user_payload" with
            | some (.str p) => .ok (.user ⟨p⟩)
            | _ => .error .invalidPayload
          else if tag = "error" then
            match jlookup fields "error_payload" with
            | some (.str p) => .ok (.error ⟨p⟩)
            | _ => .error .invalidPayload
          else if tag = "property_item" then
            match jlookup fields "item_payload" with
            | some (.str p) => .ok (.property_item ⟨p⟩)
            | _ => .error .invalidPayload
          else .error (.unknownVariant tag)
      | _ => .error .invalidPayload
  | _ => .error .invalidPayload
termination_by j => sizeOf j
decreasing_by
  simp_wf
  have hlt := sizeOf_jlookup hres
  simp only [Json.arr.sizeOf_spec] at hlt
  omega

/-- Decoding of the elements of a `results` array, failing on the first
failing element. -/
def decodeObjectArr : List Json → Except DecodeError (List Object)
  | [] => .ok []
  | x :: xs =>
      match decodeObject x with
      | .ok y =>
          match decodeObjectArr xs with
          | .ok ys => .ok (y :: ys)
          | .error e => .error e
      | .error e => .error e
termination_by xs => sizeOf xs
decreasing_by
  all_goals simp_wf
  all_goals omega

end

mutual

/-- Well-formedness of an `Object` under the `HashMap` representation
invariant (key-distinct maps) and the modelled `PropertyValue` invariant
(non-title kinds are not tagged `title`). -/
def objectWf : Object → Bool
  | .block _ => true
  | .database d => nodupKeys d.properties
  | .page p =>
      nodupKeys p.properties.properties &&
        p.properties.properties.all fun kv => propertyValueWf kv.2
  | .list l => listRespWf l
  | .user _ => true
  | .error _ => true
  | .property_item _ => true

/-- Well-formedness of a `ListResponse<Object>`. -/
def listRespWf : ListResponse Object → Bool
  | ⟨rs, _, _⟩ => objListWf rs

/-- Well-formedness of every element of a `Vec<Object>`. -/
def objListWf : List Object → Bool
  | [] => true
  | x :: xs => objectWf x && objListWf xs

end

/-! ### Sample values used by witnesses and counterexamples -/

def samplePage1 : Page :=
  { id := ⟨"page-a"⟩, created_time := ⟨0⟩, last_edited_time := ⟨1⟩,
    archived := false, properties := ⟨[]⟩, parent := .workspace,
    icon := none, url := none, blocks := none }

def samplePage2 : Page :=
  { samplePage1 with last_edited_time := ⟨2⟩ }

def sampleDatabase1 : Database :=
  { id := ⟨"db-a"⟩, created_time := ⟨0⟩, last_edited_time := ⟨1⟩,
    title := [], properties := [] }

def sampleDatabase2 : Database :=
  { sampleDatabase1 with last_edited_time := ⟨2⟩ }

def sampleTitleValue : PropertyValue :=
  .title "tid" [⟨"Hello ", "bold"⟩, ⟨"world", "plain"⟩]

def sampleOtherValue : PropertyValue :=
  .other "number" "42"

def samplePropsWithTitle : Properties :=
  ⟨[("Name", sampleTitleValue), ("Count", sampleOtherValue)]⟩

def samplePropsNoTitle : Properties :=
  ⟨[("Count", sampleOtherValue)]⟩

def samplePageRich : Page :=
  { id := ⟨"page-r"⟩, created_time := ⟨3⟩, last_edited_time := ⟨4⟩,
    archived := true,
    properties := ⟨[("b", sampleOtherValue), ("a", sampleTitleValue)]⟩,
    parent := .database ⟨"db-a"⟩,
    icon := some ⟨"emoji-x"⟩, url := some "https-example",
    blocks := some [⟨"blk"⟩] }

def sampleObjectNested : Object :=
  .list ⟨[.page samplePageRich,
          .database { sampleDatabase1 with
            properties := [("y", ⟨"c1"⟩), ("x", ⟨"c2"⟩)] }],
         some ⟨"cur"⟩, true⟩

/-! ### Helper lemmas on the narrowing operations -/

theorem filterMap_database_eq_filter (xs : List Object) :
    (xs.filterMap fun object =>
        match object with
        | .database database => some database
        | _ => none).map Object.database
      = xs.filter Object.is_database := by
  induction xs with
  | nil => rfl
  | cons x xs ih =>
      cases x <;>
        simp [List.filterMap_cons, List.filter_cons, Object.is_database, ih]

theorem collect_database_map (dbs : List Database) :
    collectResult (fun object =>
        match object with
        | .database database => Except.ok database
        | response => Except.error (Error.unexpectedResponse response))
      (dbs.map Object.database) = Except.ok dbs := by
  induction dbs with
  | nil => rfl
  | cons d ds ih => simp [collectResult, ih]

theorem collect_page_map (pgs : List Page) :
    collectResult (fun object =>
        match object with
        | .page page => Except.ok page
        | response => Except.error (Error.unexpectedResponse response))
      (pgs.map Object.page) = Except.ok pgs := by
  induction pgs with
  | nil => rfl
  | cons p ps ih => simp [collectResult, ih]

theorem collect_block_map (bks : List Block) :
    collectResult (fun object =>
        match object with
        | .block block => Except.ok block
        | response => Except.error (Error.unexpectedResponse response))
      (bks.map Object.block) = Except.ok bks := by
  induction bks with
  | nil => rfl
  | cons b bs ih => simp [collectResult, ih]

theorem collect_database_first_error (pre : List Database) (bad : Object)
    (rest : List Object) (hbad : ∀ d, bad ≠ Object.database d) :
    collectResult (fun object =>
        match object with
        | .database database => Except.ok database
        | response => Except.error (Error.unexpectedResponse response))
      (pre.map Object.database ++ bad :: rest)
      = .error (.unexpectedResponse bad) := by
  induction pre with
  | nil =>
      cases bad <;> first
        | exact absurd rfl (hbad _)
        | simp [collectResult]
  | cons d ds ih => simp [collectResult, ih]

theorem collect_page_first_error (pre : List Page) (bad : Object)
    (rest : List Object) (hbad : ∀ p, bad ≠ Object.page p) :
    collectResult (fun object =>
        match object with
        | .page page => Except.ok page
        | response => Except.error (Error.unexpectedResponse response))
      (pre.map Object.page ++ bad :: rest)
      = .error (.unexpectedResponse bad) := by
  induction pre with
  | nil =>
      cases bad <;> first
        | exact absurd rfl (hbad _)
        | simp [collectResult]
  | cons p ps ih => simp [collectResult, ih]

theorem collect_block_first_error (pre : List Block) (bad : Object)
    (rest : List Object) (hbad : ∀ b, bad ≠ Object.block b) :
    collectResult (fun object =>
        match object with
        | .block block => Except.ok block
        | response => Except.error (Error.unexpectedResponse response))
      (pre.map Object.block ++ bad :: rest)
      = .error (.unexpectedResponse bad) := by
  induction pre with
  | nil =>
      cases bad <;> first
        | exact absurd rfl (hbad _)
        | simp [collectResult]
  | cons b bs ih => simp [collectResult, ih]

/-! ### Claim theorems -/

/-- **C2**: each strict narrowing (`expect_databases`, `expect_pages`,
`expect_blocks`), on a result list whose first non-matching element is
`bad`, returns `Error::UnexpectedResponse` carrying `bad`, for every
suffix `rest` after `bad` (so scanning stops at `bad` and the outcome is
independent of what follows), and returns no partial result: the error
value carries no list. -/
theorem expect_short_circuits_on_first_mismatch (c : Option PagingCursor)
    (hm : Bool) (bad : Object) (rest : List Object) :
    (∀ pre : List Database, (∀ d, bad ≠ Object.database d) →
        ListResponse.expect_databases ⟨pre.map Object.database ++ bad :: rest, c, hm⟩
          = .error (.unexpectedResponse bad)) ∧
    (∀ pre : List Page, (∀ p, bad ≠ Object.page p) →
        ListResponse.expect_pages ⟨pre.map Object.page ++ bad :: rest, c, hm⟩
          = .error (.unexpectedResponse bad)) ∧
    (∀ pre : List Block, (∀ b, bad ≠ Object.block b) →
        ListResponse.expect_blocks ⟨pre.map Object.block ++ bad :: rest, c, hm⟩
          = .error (.unexpectedResponse bad)) := by
  refine ⟨fun pre hbad => ?_, fun pre hbad => ?_, fun pre hbad => ?_⟩
  · simp [ListResponse.expect_databases,
      collect_database_first_error pre bad rest hbad]
  · simp [ListResponse.expect_pages,
      collect_page_first_error pre bad rest hbad]
  · simp [ListResponse.expect_blocks,
      collect_block_first_error pre bad rest hbad]

/-- Witness for C2, the spec's own example: `[Page, Page, Database]` under
`expect_pages` fails with `UnexpectedResponse` carrying the `Database`
element, with no partial result. -/
theorem expect_short_circuits_on_first_mismatch_witness :
    ListResponse.expect_pages
        ⟨[Object.page samplePage1, Object.page samplePage2,
          Object.database sampleDatabase1], none, false⟩
      = .error (.unexpectedResponse (Object.database sampleDatabase1)) :=
  (expect_short_circuits_on_first_mismatch none false
      (Object.database sampleDatabase1) []).2.1
    [samplePage1, samplePage2] (fun _ h => Object.noConfusion h)

/-- **C3**: on a result list all of whose elements match the target kind,
each strict narrowing succeeds with the unwrapped elements in the same
order (the image description `dbs.map Object.database` fixes length and
per-index correspondence) and the input's `next_cursor` and `has_more`. -/
theorem expect_succeeds_when_all_match (c : Option PagingCursor) (hm : Bool)
    (dbs : List Database) (pgs : List Page) (bks : List Block) :
    ListResponse.expect_databases ⟨dbs.map Object.database, c, hm⟩
        = .ok ⟨dbs, c, hm⟩ ∧
    ListResponse.expect_pages ⟨pgs.map Object.page, c, hm⟩
        = .ok ⟨pgs, c, hm⟩ ∧
    ListResponse.expect_blocks ⟨bks.map Object.block, c, hm⟩
        = .ok ⟨bks, c, hm⟩ := by
  refine ⟨?_, ?_, ?_⟩
  · simp [ListResponse.expect_databases, collect_database_map]
  · simp [ListResponse.expect_pages, collect_page_map]
  · simp [ListResponse.expect_blocks, collect_block_map]

/-- **C4**: `only_databases` keeps exactly the `Database`-variant elements
in their original relative order (re-wrapping its results reproduces
`filter is_database` of the input) and leaves `has_more` and `next_cursor`
unchanged. -/
theorem only_databases_filters_and_keeps_envelope (l : ListResponse Object) :
    (l.only_databases).results.map Object.database
        = l.results.filter Object.is_database ∧
    (l.only_databases).has_more = l.has_more ∧
    (l.only_databases).next_cursor = l.next_cursor :=
  ⟨filterMap_database_eq_filter l.results, rfl, rfl⟩

/-- **C1, counterexample**: two `Page` values with the same id, differing
only in `last_edited_time`, are *not* equal under the equality a Rust
hash-based set uses (the derived, full-structural `Eq`), and inserting both
leaves two elements, not one. -/
theorem id_only_set_dedup_counterexample :
    samplePage1.id = samplePage2.id ∧
    samplePage1.last_edited_time ≠ samplePage2.last_edited_time ∧
    pageEq samplePage1 samplePage2 = false ∧
    (hashSetInsert pageEq (hashSetInsert pageEq [] samplePage1)
        samplePage2).length ≠ 1 := by
  refine ⟨rfl, by decide, by decide, by decide⟩

/-- **C1, amended**: two `Page` (resp. `Database`) values with identical id
but distinguished by full structural comparison hash identically (the
custom `Hash` reads only `id`), but both survive insertion into a
hash-based set, because the container's equality is the derived
full-structural `Eq`, not the id-restricted hash. -/
theorem id_hash_collides_but_both_survive_insertion
    (h : PageId → Nat) (h' : DatabaseId → Nat)
    (p1 p2 : Page) (d1 d2 : Database)
    (hpid : p1.id = p2.id) (hpe : pageEq p1 p2 = false)
    (hdid : d1.id = d2.id) (hde : databaseEq d1 d2 = false) :
    pageHash h p1 = pageHash h p2 ∧
    hashSetInsert pageEq (hashSetInsert pageEq [] p1) p2 = [p1, p2] ∧
    databaseHash h' d1 = databaseHash h' d2 ∧
    hashSetInsert databaseEq (hashSetInsert databaseEq [] d1) d2 = [d1, d2] := by
  refine ⟨?_, ?_, ?_, ?_⟩
  · simp [pageHash, hpid]
  · simp [hashSetInsert, hpe]
  · simp [databaseHash, hdid]
  · simp [hashSetInsert, hde]

/-- Witness for the amended C1 at concrete pages/databases differing only
in `last_edited_time`. -/
theorem id_hash_collides_but_both_survive_insertion_witness :
    pageHash (fun i => i.str0.length) samplePage1
        = pageHash (fun i => i.str0.length) samplePage2 ∧
    hashSetInsert pageEq (hashSetInsert pageEq [] samplePage1) samplePage2
        = [samplePage1, samplePage2] ∧
    databaseHash (fun i => i.str0.length) sampleDatabase1
        = databaseHash (fun i => i.str0.length) sampleDatabase2 ∧
    hashSetInsert databaseEq (hashSetInsert databaseEq [] sampleDatabase1)
        sampleDatabase2 = [sampleDatabase1, sampleDatabase2] :=
  id_hash_collides_but_both_survive_insertion
    (fun i => i.str0.length) (fun i => i.str0.length)
    samplePage1 samplePage2 sampleDatabase1 sampleDatabase2
    rfl (by decide) rfl (by decide)

/-- **C10**: structural equality (the derived `PartialEq`) implies equal
id-only hashes, for `Page` and `Database` alike: the custom `Hash` is
consistent with the derived `Eq`. -/
theorem structural_eq_implies_hash_eq
    (h : PageId → Nat) (h' : DatabaseId → Nat)
    (p1 p2 : Page) (d1 d2 : Database)
    (hp : pageEq p1 p2 = true) (hd : databaseEq d1 d2 = true) :
    pageHash h p1 = pageHash h p2 ∧ databaseHash h' d1 = databaseHash h' d2 := by
  constructor
  · simp only [pageEq, Bool.and_eq_true, beq_iff_eq] at hp
    simp [pageHash, hp.1.1.1.1.1.1.1.1]
  · simp only [databaseEq, Bool.and_eq_true, beq_iff_eq] at hd
    simp [databaseHash, hd.1.1.1.1]

/-! ### Ordered serialization of unordered maps -/

theorem ordered_map_perm {β : Type} (m : List (String × β)) :
    List.Perm (ordered_map m) m :=
  List.perm_insertionSort _ m

theorem ordered_map_sorted {β : Type} (m : List (String × β)) :
    (ordered_map m).Sorted (fun a b => a.1 ≤ b.1) :=
  List.sorted_insertionSort _ m

theorem alookup_eq_none {β : Type} (m : List (String × β)) (k : String) :
    alookup m k = none ↔ k ∉ m.map Prod.fst := by
  induction m with
  | nil => simp [alookup]
  | cons kv rest ih =>
      obtain ⟨k', v'⟩ := kv
      by_cases h : k' = k
      · subst h
        simp [alookup]
      · simp only [alookup, if_neg h, ih, List.map_cons, List.mem_cons]
        constructor
        · intro hnk
          rintro (rfl | hm)
          · exact h rfl
          · exact hnk hm
        · exact fun hn hm => hn (Or.inr hm)

theorem nodupKeys_iff {β : Type} (m : List (String × β)) :
    nodupKeys m = true ↔ (m.map Prod.fst).Nodup := by
  induction m with
  | nil => simp [nodupKeys]
  | cons kv rest ih =>
      obtain ⟨k, v⟩ := kv
      simp [nodupKeys, Option.isNone_iff_eq_none, alookup_eq_none, ih,
        List.nodup_cons]

theorem alookup_of_mem_of_nodup {β : Type} {m : List (String × β)}
    {k : String} {v : β}
    (hnd : (m.map Prod.fst).Nodup) (hmem : (k, v) ∈ m) :
    alookup m k = some v := by
  induction m with
  | nil => simp at hmem
  | cons kv rest ih =>
      obtain ⟨k', v'⟩ := kv
      simp only [List.map_cons, List.nodup_cons] at hnd
      rcases List.mem_cons.mp hmem with heq | htail
      · obtain ⟨hk, hv⟩ := Prod.mk.injEq .. ▸ heq.symm
        subst hk
        subst hv
        simp [alookup]
      · by_cases hk : k' = k
        · subst hk
          exact absurd (List.mem_map_of_mem Prod.fst htail) hnd.1
        · simpa [alookup, hk] using ih hnd.2 htail

theorem sorted_strict_of_sorted_nodup {β : Type} {l : List (String × β)}
    (hs : l.Sorted (fun a b => a.1 ≤ b.1)) (hnd : (l.map Prod.fst).Nodup) :
    l.Sorted (fun a b => a.1 < b.1) := by
  have hne : l.Pairwise (fun a b => a.1 ≠ b.1) := List.pairwise_map.mp hnd
  exact (hs.and hne).imp fun h => lt_of_le_of_ne h.1 h.2

theorem ordered_map_eq_of_perm {β : Type} {m1 m2 : List (String × β)}
    (hperm : List.Perm m1 m2) (hnd : nodupKeys m1 = true) :
    ordered_map m1 = ordered_map m2 := by
  have hnd1 : (m1.map Prod.fst).Nodup := (nodupKeys_iff m1).mp hnd
  have hnd2 : (m2.map Prod.fst).Nodup := (hperm.map Prod.fst).nodup_iff.mp hnd1
  have hp : List.Perm (ordered_map m1) (ordered_map m2) :=
    (ordered_map_perm m1).trans (hperm.trans (ordered_map_perm m2).symm)
  have hs1 := sorted_strict_of_sorted_nodup (ordered_map_sorted m1)
    (((ordered_map_perm m1).map Prod.fst).nodup_iff.mpr hnd1)
  have hs2 := sorted_strict_of_sorted_nodup (ordered_map_sorted m2)
    (((ordered_map_perm m2).map Prod.fst).nodup_iff.mpr hnd2)
  exact List.eq_of_perm_of_sorted hp hs1 hs2

/-- **C5**: serializing the unordered `properties` mapping of a
`Properties` value or a `Database` emits its entries sorted by key, and two
mappings with the same key-value content built in different insertion
orders (permutations of one another, under the `HashMap` key-distinctness
invariant) serialize to identical output — in particular identical key
ordering. -/
theorem map_serialization_sorted_and_order_independent
    (p : Properties) (q : List (String × PropertyValue))
    (d : Database) (m : List (String × PropertyConfiguration))
    (hpq : List.Perm p.properties q) (hpnd : nodupKeys p.properties = true)
    (hdm : List.Perm d.properties m) (hdnd : nodupKeys d.properties = true) :
    (jsonObjKeys (encodeProperties p)).Sorted (· ≤ ·) ∧
    encodeProperties p = encodeProperties ⟨q⟩ ∧
    (databasePropsKeys d).Sorted (· ≤ ·) ∧
    encodeDatabaseFields d = encodeDatabaseFields { d with properties := m } := by
  refine ⟨?_, ?_, ?_, ?_⟩
  · have := ordered_map_sorted p.properties
    simp only [encodeProperties, jsonObjKeys, jsonFields, List.map_map]
    exact List.pairwise_map.mpr this
  · simp only [encodeProperties]
    rw [ordered_map_eq_of_perm hpq hpnd]
  · have hs := ordered_map_sorted d.properties
    have hred : databasePropsKeys d
        = ((ordered_map d.properties).map fun kv =>
            (kv.1, encodePropertyConfiguration kv.2)).map Prod.fst := rfl
    rw [hred]
    exact List.pairwise_map.mpr (List.pairwise_map.mpr hs)
  · simp only [encodeDatabaseFields]
    rw [ordered_map_eq_of_perm hdm hdnd]

/-- Witness for C5 at two concrete two-entry maps built in opposite
insertion orders. -/
theorem map_serialization_sorted_and_order_independent_witness :
    (jsonObjKeys (encodeProperties ⟨[("b", sampleOtherValue), ("a", sampleTitleValue)]⟩)).Sorted (· ≤ ·) ∧
    encodeProperties ⟨[("b", sampleOtherValue), ("a", sampleTitleValue)]⟩
        = encodeProperties ⟨[("a", sampleTitleValue), ("b", sampleOtherValue)]⟩ ∧
    (databasePropsKeys { sampleDatabase1 with
        properties := [("y", ⟨"cfg1"⟩), ("x", ⟨"cfg2"⟩)] }).Sorted (· ≤ ·) ∧
    encodeDatabaseFields { sampleDatabase1 with
        properties := [("y", ⟨"cfg1"⟩), ("x", ⟨"cfg2"⟩)] }
      = encodeDatabaseFields { sampleDatabase1 with
        properties := [("x", ⟨"cfg2"⟩), ("y", ⟨"cfg1"⟩)] } :=
  map_serialization_sorted_and_order_independent
    ⟨[("b", sampleOtherValue), ("a", sampleTitleValue)]⟩
    [("a", sampleTitleValue), ("b", sampleOtherValue)]
    { sampleDatabase1 with properties := [("y", ⟨"cfg1"⟩), ("x", ⟨"cfg2"⟩)] }
    [("x", ⟨"cfg2"⟩), ("y", ⟨"cfg1"⟩)]
    (by decide) (by decide) (by decide) (by decide)

/-! ### Title lookup -/

theorem findSome_eq_head_filterMap {α β : Type} (f : α → Option β) (l : List α) :
    l.findSome? f = (l.filterMap f).head? :=
  (List.filterMap_head? f l).symm

theorem findSome_title_join (l : List (String × PropertyValue)) :
    l.findSome? (fun kv =>
        match kv.2 with
        | PropertyValue.title _ ts =>
            some (String.join (ts.map RichText.plain_text))
        | _ => none)
      = ((l.filterMap fun kv =>
            match kv.2 with
            | PropertyValue.title _ ts => some ts
            | _ => none).head?).map
          fun ts => String.join (ts.map RichText.plain_text) := by
  induction l with
  | nil => rfl
  | cons kv rest ih =>
      obtain ⟨k, v⟩ := kv
      cases v <;> simp [List.findSome?_cons, List.filterMap_cons, ih]

/-- **C7**: under the spec §3 invariant that a `Properties` mapping holds at
most one Title-kind entry: with exactly one Title-kind entry carrying
rich-text `ts`, `title()` returns the concatenation of the plain-text runs
of `ts` and `title_object()` returns `ts`; with zero Title-kind entries,
both return absent.  Both operations are total (`Option`-valued), so
neither can fail with an error. -/
theorem title_lookup_of_title_entries (p : Properties) :
    (titleEntries p = [] → p.title = none ∧ p.title_object = none) ∧
    (∀ ts, titleEntries p = [ts] →
        p.title = some (String.join (ts.map RichText.plain_text)) ∧
        p.title_object = some ts) := by
  have htitle : p.title = ((titleEntries p).head?).map
      (fun ts => String.join (ts.map RichText.plain_text)) :=
    findSome_title_join p.properties
  have hobj : p.title_object = (titleEntries p).head? :=
    findSome_eq_head_filterMap _ p.properties
  refine ⟨fun h0 => ?_, fun ts hts => ?_⟩
  · rw [htitle, hobj, h0]
    exact ⟨rfl, rfl⟩
  · rw [htitle, hobj, hts]
    exact ⟨rfl, rfl⟩

/-- Witness for C7 at a concrete one-title mapping and a concrete
title-free mapping. -/
theorem title_lookup_of_title_entries_witness :
    (samplePropsWithTitle.title
        = some (String.join (["Hello ", "world"])) ∧
     samplePropsWithTitle.title_object
        = some [⟨"Hello ", "bold"⟩, ⟨"world", "plain"⟩]) ∧
    (samplePropsNoTitle.title = none ∧
     samplePropsNoTitle.title_object = none) :=
  ⟨(title_lookup_of_title_entries samplePropsWithTitle).2
      [⟨"Hello ", "bold"⟩, ⟨"world", "plain"⟩] (by decide),
   (title_lookup_of_title_entries samplePropsNoTitle).1 (by decide)⟩

/-- **C9**: in the encodings of `PageCreateRequest` and `PageUpdateRequest`,
each optional field (`children`, `icon`, `archived`) left unset is absent
from the output entirely — its key is not looked up to `null` or anything
else — while each set optional field is emitted with its encoded value. -/
theorem request_optional_fields_absent_not_null
    (r : PageCreateRequest) (u : PageUpdateRequest) :
    jlookup (jsonFields (encodePageCreateRequest r)) "children"
        = r.children.map (fun cs => Json.arr (cs.map encodeCreateBlock)) ∧
    jlookup (jsonFields (encodePageCreateRequest r)) "icon"
        = r.icon.map encodeFileOrEmoji ∧
    jlookup (jsonFields (encodePageUpdateRequest u)) "archived"
        = u.archived.map Json.bool ∧
    jlookup (jsonFields (encodePageUpdateRequest u)) "icon"
        = u.icon.map encodeFileOrEmoji := by
  obtain ⟨pa, pr, ch, ic⟩ := r
  obtain ⟨pr', ar, ic'⟩ := u
  cases ch <;> cases ic <;> cases ar <;> cases ic' <;>
    simp [encodePageCreateRequest, encodePageUpdateRequest, jsonFields, jlookup]

/-- **C8**: decoding a payload whose `object` discriminator is none of the
seven recognized tags fails with `DecodeError.unknownVariant` carrying that
tag; the payload is never coerced to a default variant. -/
theorem decode_unknown_tag_fails (fields : List (String × Json)) (tag : String)
    (hobj : jlookup fields "object" = some (.str tag))
    (hn : tag ∉ (["block", "database", "page", "list", "user", "error",
        "property_item"] : List String)) :
    decodeObject (.obj fields) = .error (.unknownVariant tag) := by
  simp only [List.mem_cons, List.not_mem_nil, or_false] at hn
  push_neg at hn
  obtain ⟨h1, h2, h3, h4, h5, h6, h7⟩ := hn
  simp [decodeObject, hobj, h1, h2, h3, h4, h5, h6, h7]

/-- Witness for C8 at the concrete unrecognized tag `comment`. -/
theorem decode_unknown_tag_fails_witness :
    decodeObject (.obj [("object", .str "comment")])
      = .error (.unknownVariant "comment") :=
  decode_unknown_tag_fails [("object", .str "comment")] "comment"
    (by simp [jlookup]) (by decide)

/-! ### Encode/decode round trip -/

theorem decodeArrWith_map {β : Type} (dec : Json → Option β) (enc : β → Json)
    (l : List β) (h : ∀ b ∈ l, dec (enc b) = some b) :
    decodeArrWith dec (l.map enc) = some l := by
  induction l with
  | nil => rfl
  | cons x xs ih =>
      simp [decodeArrWith, h x (List.mem_cons_self x xs),
        ih fun b hb => h b (List.mem_cons_of_mem x hb)]

theorem decodeMapWith_map {β : Type} (dec : Json → Option β) (enc : β → Json)
    (l : List (String × β)) (h : ∀ kv ∈ l, dec (enc kv.2) = some kv.2) :
    decodeMapWith dec (l.map fun kv => (kv.1, enc kv.2)) = some l := by
  induction l with
  | nil => rfl
  | cons kv rest ih =>
      obtain ⟨k, v⟩ := kv
      simp [decodeMapWith, h (k, v) (List.mem_cons_self _ _),
        ih fun kv hkv => h kv (List.mem_cons_of_mem _ hkv)]

theorem decodeRichText_encode (r : RichText) :
    decodeRichText (encodeRichText r) = some r := by
  cases r
  rfl

theorem decodeTime_encode (t : OffsetDateTime) :
    decodeTime (encodeTime t) = some t := by
  cases t
  rfl

theorem decodePropertyConfiguration_encode (c : PropertyConfiguration) :
    decodePropertyConfiguration (encodePropertyConfiguration c) = some c := by
  cases c
  rfl

theorem decodePropertyValue_encode (v : PropertyValue)
    (hwf : propertyValueWf v = true) :
    decodePropertyValue (encodePropertyValue v) = some v := by
  cases v with
  | title i ts =>
      simp [encodePropertyValue, decodePropertyValue, jlookup,
        decodeArrWith_map decodeRichText encodeRichText ts
          fun b _ => decodeRichText_encode b]
  | other kind payload =>
      have hk : kind ≠ "title" := by simpa [propertyValueWf] using hwf
      simp [encodePropertyValue, decodePropertyValue, jlookup, hk]

theorem decodeParent_encode (par : Parent) :
    decodeParent (encodeParent par) = some par := by
  cases par <;>
    simp [encodeParent, decodeParent, jlookup, encodeDatabaseId,
      encodePageId, encodeBlockId]

theorem decodeBlockVal_encode (b : Block) :
    decodeBlockVal (encodeBlock b) = some b := by
  cases b
  rfl

theorem mapBEq_of_perm {β : Type} [BEq β] [LawfulBEq β]
    {m1 m2 : List (String × β)}
    (hperm : List.Perm m1 m2) (hnd : nodupKeys m2 = true) :
    mapBEq m1 m2 = true := by
  have hnd2 := (nodupKeys_iff m2).mp hnd
  simp only [mapBEq, Bool.and_eq_true, beq_iff_eq, List.all_eq_true]
  refine ⟨hperm.length_eq, ?_⟩
  intro kv hkv
  obtain ⟨k, v⟩ := kv
  have hmem : (k, v) ∈ m2 := hperm.mem_iff.mp hkv
  simp [alookup_of_mem_of_nodup hnd2 hmem]

theorem decodeDatabaseFields_encode (d : Database) :
    decodeDatabaseFields (("object", Json.str "database") :: encodeDatabaseFields d)
      = some { d with properties := ordered_map d.properties } := by
  simp [decodeDatabaseFields, encodeDatabaseFields, jlookup, encodeDatabaseId,
    decodeTime_encode,
    decodeArrWith_map decodeRichText encodeRichText d.title
      (fun b _ => decodeRichText_encode b),
    decodeMapWith_map decodePropertyConfiguration encodePropertyConfiguration
      (ordered_map d.properties)
      (fun kv _ => decodePropertyConfiguration_encode kv.2)]

theorem databaseEq_sorted (d : Database) (hnd : nodupKeys d.properties = true) :
    databaseEq { d with properties := ordered_map d.properties } d = true := by
  simp [databaseEq, mapBEq_of_perm (ordered_map_perm d.properties) hnd]

theorem decodePageFields_encode (p : Page)
    (hwf : p.properties.properties.all (fun kv => propertyValueWf kv.2) = true) :
    decodePageFields (("object", Json.str "page") :: encodePageFields p)
      = some { p with properties := ⟨ordered_map p.properties.properties⟩ } := by
  obtain ⟨pid, ct, lt, ar, ⟨props⟩, par, ic, u, bl⟩ := p
  have hdecm : decodeMapWith decodePropertyValue
      ((ordered_map props).map fun kv => (kv.1, encodePropertyValue kv.2))
      = some (ordered_map props) := by
    refine decodeMapWith_map _ _ _ fun kv hkv => ?_
    refine decodePropertyValue_encode kv.2 ?_
    have hmem : kv ∈ props := (ordered_map_perm props).mem_iff.mp hkv
    exact (List.all_eq_true.mp hwf) kv hmem
  cases ic <;> cases u <;> cases bl <;>
    simp [encodePageFields, decodePageFields, jlookup, encodePageId,
      encodeProperties, decodeTime_encode, decodeParent_encode, hdecm,
      decodeOpt, decodeStrVal, decodeFileOrEmoji, decodeBlocksVal,
      encodeFileOrEmoji,
      decodeArrWith_map decodeBlockVal encodeBlock _
        fun b _ => decodeBlockVal_encode b]

theorem pageEq_sorted (p : Page)
    (hnd : nodupKeys p.properties.properties = true) :
    pageEq { p with properties := ⟨ordered_map p.properties.properties⟩ } p = true := by
  simp [pageEq, propertiesEq,
    mapBEq_of_perm (ordered_map_perm p.properties.properties) hnd]

mutual

theorem decode_encode_objectAux : ∀ (x : Object), objectWf x = true →
    ∃ y, decodeObject (encodeObject x) = Except.ok y ∧ objectEq y x = true
  | .block b, _ =>
      ⟨.block b,
       by simp [encodeObject, decodeObject, encodeBlockFields, jlookup],
       by simp [objectEq]⟩
  | .database d, hwf =>
      ⟨.database { d with properties := ordered_map d.properties },
       by simp [encodeObject, decodeObject, jlookup, decodeDatabaseFields_encode],
       by
         have hnd : nodupKeys d.properties = true := by simpa [objectWf] using hwf
         simp [objectEq, databaseEq_sorted d hnd]⟩
  | .page p, hwf =>
      ⟨.page { p with properties := ⟨ordered_map p.properties.properties⟩ },
       by
         have hall : p.properties.properties.all
             (fun kv => propertyValueWf kv.2) = true := by
           have h := hwf
           simp [objectWf, Bool.and_eq_true] at h
           exact List.all_eq_true.mpr fun kv hkv => h.2 kv.1 kv.2 hkv
         simp [encodeObject, decodeObject, jlookup, decodePageFields_encode p hall],
       by
         have hnd : nodupKeys p.properties.properties = true := by
           have := hwf
           simp [objectWf, Bool.and_eq_true] at this
           exact this.1
         simp [objectEq, pageEq_sorted p hnd]⟩
  | .list ⟨rs, c, hm⟩, hwf => by
      have hrs : objListWf rs = true := by
        simpa [objectWf, listRespWf] using hwf
      obtain ⟨ys, hdec, heq⟩ := decode_encode_listAux rs hrs
      refine ⟨.list ⟨ys, c, hm⟩, ?_, ?_⟩
      · cases c <;>
          simp [encodeObject, decodeObject, encodeListFields, jlookup,
            encodeCursor, decodeOpt, decodeCursorVal, hdec]
      · simp [objectEq, listRespObjEq, heq]
  | .user u, _ =>
      ⟨.user u,
       by simp [encodeObject, decodeObject, encodeUserFields, jlookup],
       by simp [objectEq]⟩
  | .error e, _ =>
      ⟨.error e,
       by simp [encodeObject, decodeObject, encodeErrorFields, jlookup],
       by simp [objectEq]⟩
  | .property_item q, _ =>
      ⟨.property_item q,
       by simp [encodeObject, decodeObject, encodePropertyItemFields, jlookup],
       by simp [objectEq]⟩

theorem decode_encode_listAux : ∀ (xs : List Object), objListWf xs = true →
    ∃ ys, decodeObjectArr (encodeObjectList xs) = Except.ok ys ∧
      objListEq ys xs = true
  | [], _ => ⟨[], by simp [encodeObjectList, decodeObjectArr], by simp [objListEq]⟩
  | x :: xs, hwf => by
      have hx : objectWf x = true := by
        have := hwf
        simp [objListWf, Bool.and_eq_true] at this
        exact this.1
      have hxs : objListWf xs = true := by
        have := hwf
        simp [objListWf, Bool.and_eq_true] at this
        exact this.2
      obtain ⟨y, hy, hyeq⟩ := decode_encode_objectAux x hx
      obtain ⟨ys, hys, hyseq⟩ := decode_encode_listAux xs hxs
      refine ⟨y :: ys, ?_, ?_⟩
      · simp [encodeObjectList, decodeObjectArr, hy, hys]
      · simp [objListEq, hyeq, hyseq]

end

/-- **C6**: for every well-formed `Object` (any variant — Block, Database,
Page, List, User, Error, PropertyItem — with key-distinct maps and
well-formed property values), decoding its encoding succeeds and yields a
value equal to it under the derived structural equality (which is `HashMap`
content equality on the `properties` maps, so key-sorted re-emission is
invisible): all required fields round-trip, timestamps exactly, and
optional fields absent before encoding are absent after decoding. -/
theorem decode_encode_roundtrip (x : Object) (hwf : objectWf x = true) :
    ∃ y, decodeObject (encodeObject x) = Except.ok y ∧ objectEq y x = true :=
  decode_encode_objectAux x hwf

/-- Witness for C6 at a concrete nested list object holding a page (with
unset and set optional fields and an unsorted property map) and a database. -/
theorem decode_encode_roundtrip_witness :
    ∃ y, decodeObject (encodeObject sampleObjectNested) = Except.ok y ∧
      objectEq y sampleObjectNested = true :=
  decode_encode_roundtrip sampleObjectNested
    (by simp [sampleObjectNested, samplePageRich, sampleDatabase1,
      sampleTitleValue, sampleOtherValue, objectWf, listRespWf, objListWf,
      nodupKeys, alookup, propertyValueWf])

/-- Witness for C10 at concrete structurally equal values. -/
theorem structural_eq_implies_hash_eq_witness :
    pageHash (fun i => i.str0.length) samplePage1
        = pageHash (fun i => i.str0.length) samplePage1 ∧
    databaseHash (fun i => i.str0.length) sampleDatabase1
        = databaseHash (fun i => i.str0.length) sampleDatabase1 :=
  structural_eq_implies_hash_eq
    (fun i => i.str0.length) (fun i => i.str0.length)
    samplePage1 samplePage1 sampleDatabase1 sampleDatabase1
    (by decide) (by decide)

end Notion
